import Mathlib

/-!
# terraform-provider-k0s: the provider package

A shallow embedding of `internal/provider` (config_resource.go, config_schema.go,
logrus.go, provider.go) and the properties of its resource lifecycle glue:
the phase pipeline built by `ConfigResource.Create`, what `Create` reports and
stores after `Manager.Run`, the Cluster built from the resource model, the
logrus-to-tflog bridge and the provider/resource `Configure` hand-over.

Framework and library calls whose bodies are outside the package
(`req.Plan.Get`, `resp.State.Set`, `manager.Run`) are parameters of the
embedded functions.
-/

namespace Provider

/-! ## provider.go -/

/-- The constant `DefaultConcurrency` of provider.go. -/
def DefaultConcurrency : Int := 30

/-- A framework `types.Bool`: null, unknown or a known value. -/
inductive TBool where
  | null
  | unknown
  | known (b : Bool)
  deriving DecidableEq, Repr

/-- The accessor `types.Bool.ValueBool`: false unless the value is known. -/
def TBool.ValueBool : TBool → Bool
  | .known b => b
  | _ => false

/-- A framework `types.Int64`: null, unknown or a known value. -/
inductive TInt64 where
  | null
  | unknown
  | known (v : Int)
  deriving DecidableEq, Repr

/-- The struct `K0sProviderModel`. -/
structure K0sProviderModel where
  DisableTelemetry : TBool
  Concurrency : TInt64
  deriving DecidableEq, Repr

/-- Severity of a framework diagnostic. -/
inductive Severity where
  | error
  | warning
  deriving DecidableEq, Repr

/-- A framework diagnostic (`diag.Diagnostic`). -/
structure Diagnostic where
  severity : Severity
  summary : String
  detail : String
  deriving DecidableEq, Repr

/-- The method `Diagnostics.HasError`: some diagnostic has error severity. -/
def HasError (ds : List Diagnostic) : Bool :=
  ds.any (fun d => d.severity == Severity.error)

/-- The method `Diagnostics.AddError`. -/
def AddError (ds : List Diagnostic) (summary detail : String) : List Diagnostic :=
  ds ++ [{ severity := Severity.error, summary := summary, detail := detail }]

/-- A Go interface value as far as `ConfigResource.Configure` can tell its
dynamic type apart: nil, a `K0sProviderModel` value, a `*K0sProviderModel`
pointer, or a value of another type. -/
inductive ProviderData where
  | nil
  | modelValue (m : K0sProviderModel)
  | modelPtr (m : K0sProviderModel)
  | other (typeName : String)
  deriving DecidableEq, Repr

/-- The dynamic type name that the verb `%T` prints. -/
def ProviderData.typeName : ProviderData → String
  | .nil => "<nil>"
  | .modelValue _ => "provider.K0sProviderModel"
  | .modelPtr _ => "*provider.K0sProviderModel"
  | .other n => n

/-- The result of `req.Config.Get(ctx, &data)`: its diagnostics and the decoded model. -/
structure ProviderConfigGet where
  diags : List Diagnostic
  data : K0sProviderModel
  deriving Repr

/-- The struct `provider.ConfigureResponse`, as far as the provider fills it. -/
structure ProviderConfigureResponse where
  Diagnostics : List Diagnostic
  DataSourceData : ProviderData
  ResourceData : ProviderData
  deriving Repr

/-- The method `K0sProvider.Configure`: decodes the provider configuration and,
unless decoding reported an error, stores the decoded model BY VALUE
(`resp.ResourceData = data` with `data` of type `K0sProviderModel`). -/
def K0sProvider.Configure (get : ProviderConfigGet) : ProviderConfigureResponse :=
  let diags := get.diags
  if HasError diags then
    { Diagnostics := diags, DataSourceData := ProviderData.nil, ResourceData := ProviderData.nil }
  else
    { Diagnostics := diags
      DataSourceData := ProviderData.modelValue get.data
      ResourceData := ProviderData.modelValue get.data }

/-! ## config_schema.go -/

/-- A host of the cluster inventory (`cluster.Host`), with the one field the
provider reads. -/
structure Host where
  Address : String
  Reset : Bool
  deriving DecidableEq, Repr

/-- The metadata of a `v1beta1.Cluster`: the cluster name and the kubeconfig
content the provider reads back after the run. -/
structure ClusterMetadata where
  Name : String := ""
  Kubeconfigs : String := ""
  deriving DecidableEq, Repr

/-- The spec of a `v1beta1.Cluster`: host inventory and target k0s version. -/
structure ClusterSpec where
  Hosts : List Host := []
  Version : String := ""
  deriving DecidableEq, Repr

/-- The struct `v1beta1.Cluster`; the composite literal `v1beta1.Cluster{}` is
the value with every field at its zero value. -/
structure Cluster where
  Metadata : ClusterMetadata := {}
  Spec : ClusterSpec := {}
  deriving DecidableEq, Repr

/-- The struct `K0SConfig_V1Beta1`: its only field is `Id`. -/
structure K0SConfig_V1Beta1 where
  Id : String
  deriving DecidableEq, Repr

/-- The method `K0SConfig_V1Beta1.Cluster`: `return v1beta1.Cluster{}`. -/
def K0SConfig_V1Beta1.Cluster (_kc : K0SConfig_V1Beta1) : Cluster :=
  {}

/-! ## logrus.go -/

/-- The type `logrus.Level`. -/
inductive Level where
  | PanicLevel
  | FatalLevel
  | ErrorLevel
  | WarnLevel
  | InfoLevel
  | DebugLevel
  | TraceLevel
  deriving DecidableEq, Repr

/-- The variable `logrus.AllLevels`. -/
def AllLevels : List Level :=
  [Level.PanicLevel, Level.FatalLevel, Level.ErrorLevel, Level.WarnLevel,
   Level.InfoLevel, Level.DebugLevel, Level.TraceLevel]

/-- The tflog function an entry is sent to. -/
inductive TFLevel where
  | Error
  | Warn
  | Info
  | Debug
  | Trace
  deriving DecidableEq, Repr

/-- The struct `LogRusToTFLogHandler` (its context field carries no data here). -/
structure LogRusToTFLogHandler where
  loglevel : Level
  deriving DecidableEq, Repr

/-- What a call of `Write` does: the tflog calls made (level and message bytes)
and the returned pair `(n, err)`. -/
structure WriteResult where
  n : Nat
  err : Option String
  logged : List (TFLevel × List UInt8)
  deriving DecidableEq, Repr

/-- The method `LogRusToTFLogHandler.Write`: a switch over the handler level. -/
def LogRusToTFLogHandler.Write (lh : LogRusToTFLogHandler) (p : List UInt8) : WriteResult :=
  match lh.loglevel with
  | .ErrorLevel | .FatalLevel | .PanicLevel =>
    { n := p.length, err := none, logged := [(TFLevel.Error, p)] }
  | .WarnLevel =>
    { n := p.length, err := none, logged := [(TFLevel.Warn, p)] }
  | .InfoLevel =>
    { n := p.length, err := none, logged := [(TFLevel.Info, p)] }
  | .DebugLevel =>
    { n := p.length, err := none, logged := [(TFLevel.Debug, p)] }
  | _ =>
    { n := 0, err := some "unknown Log level", logged := [] }

/-- A `logrus_writer.Hook`: the writer and the levels it fires on. -/
structure Hook where
  Writer : LogRusToTFLogHandler
  LogLevels : List Level
  deriving DecidableEq, Repr

/-- The function `PipeLogRusToTFLog`: the hooks it adds, one per member of
`logrus.AllLevels`, in order. -/
def PipeLogRusToTFLog : List Hook :=
  AllLevels.map (fun level => { Writer := { loglevel := level }, LogLevels := [level] })

/-! ## config_resource.go -/

/-- The struct `ConfigResource`. -/
structure ConfigResource where
  disable_telemetry : Bool := false
  deriving DecidableEq, Repr

/-- The struct `ConfigResourceModel`, with the embedded `K0SConfig_V1Beta1`. -/
structure ConfigResourceModel where
  Concurrency : Int
  ConcurrentUploads : Int
  DisableDowngradeCheck : Bool
  RestoreFrom : Bool
  NoDrain : Bool
  NoWait : Bool
  KubeConfigAPIAddress : String
  KubeConfig : String
  K0SConfig_V1Beta1 : K0SConfig_V1Beta1
  deriving DecidableEq, Repr

/-- The method `ConfigResource.Configure`: returns the resource after the call
and the diagnostics added to the response. The type assertion
`req.ProviderData.(*K0sProviderModel)` succeeds on a pointer only. -/
def ConfigResource.Configure (r : ConfigResource) (providerData : ProviderData) :
    ConfigResource × List Diagnostic :=
  match providerData with
  | .nil => (r, [])
  | .modelPtr provData => ({ r with disable_telemetry := provData.DisableTelemetry.ValueBool }, [])
  | pd =>
    (r, AddError [] "Unexpected Resource Configure Type"
      ("Expected K0sProviderModel, got: " ++ pd.typeName ++
        ". Please report this issue to the provider developers."))

/-- A cancel function registered by a Lock phase, named by the lock it releases. -/
abbrev Token := Nat

/-- Modelled from the spec: the `phase.Lock` object that `lockPhase` points to
(package k0sctl/phase, outside this repository). It holds the cancellation
capability, a mutable field that is empty in `&phase.Lock{}` and set by the
Lock phase when it succeeds. -/
structure LockPhase where
  cfs : List Token := []
  deriving DecidableEq, Repr

/-- Modelled from the spec: a Go `func()` as stored in `phase.Unlock.Cancel`:
nil, or the value of the expression `lockPhase.Cancel`. The package k0sctl/phase
that declares `Lock` is outside this repository; there `Cancel` is a method of
`*Lock`, so the expression is a method value bound to the object `lockPhase`
points to, which reads that object when it is called. This is the coupling the
design describes: a mutable field set by the Lock phase and read by the later
Unlock phase, through object identity. -/
inductive CancelFunc where
  | nil
  | lockPhaseCancel
  deriving DecidableEq, Repr

/-- Calling a cancel function while the Lock object is `l`: the registered
cancel functions it invokes. -/
def CancelFunc.call : CancelFunc → LockPhase → List Token
  | .nil, _ => []
  | .lockPhaseCancel, l => l.cfs

/-- The phase values that `ConfigResource.Create` constructs, with the fields
it sets. `Lock` is the pointer `lockPhase`. -/
inductive Phase where
  | Connect
  | DetectOS
  | Lock
  | PrepareHosts
  | GatherFacts
  | DownloadBinaries
  | UploadFiles
  | ValidateHosts
  | GatherK0sFacts
  | ValidateFacts (SkipDowngradeCheck : Bool)
  | UploadBinaries
  | DownloadK0s
  | InstallBinaries
  | RunHooks (Stage Action : String)
  | PrepareArm
  | ConfigureK0s
  | Restore (RestoreFrom : Bool)
  | InitializeK0s
  | InstallControllers
  | InstallWorkers
  | UpgradeControllers
  | UpgradeWorkers (NoDrain : Bool)
  | ResetWorkers (NoDrain : Bool)
  | ResetControllers (NoDrain : Bool)
  | GetKubeconfig (APIAddress : String)
  | Unlock (Cancel : CancelFunc)
  | Disconnect
  deriving DecidableEq, Repr

/-- The struct `phase.Manager` with the fields Create sets and its phase list. -/
structure Manager where
  Config : Cluster
  Concurrency : Int
  ConcurrentUploads : Int
  phases : List Phase := []
  deriving DecidableEq, Repr

/-- The method `Manager.AddPhase`: appends to the phase list. -/
def Manager.AddPhase (m : Manager) (ps : List Phase) : Manager :=
  { m with phases := m.phases ++ ps }

/-- The argument list of `manager.AddPhase(...)` in `ConfigResource.Create`. -/
def createPhases (data : ConfigResourceModel) : List Phase :=
  [ Phase.Connect,
    Phase.DetectOS,
    Phase.Lock,
    Phase.PrepareHosts,
    Phase.GatherFacts,
    Phase.DownloadBinaries,
    Phase.UploadFiles,
    Phase.ValidateHosts,
    Phase.GatherK0sFacts,
    Phase.ValidateFacts data.DisableDowngradeCheck,
    Phase.UploadBinaries,
    Phase.DownloadK0s,
    Phase.InstallBinaries,
    Phase.RunHooks "before" "apply",
    Phase.PrepareArm,
    Phase.ConfigureK0s,
    Phase.Restore data.RestoreFrom,
    Phase.InitializeK0s,
    Phase.InstallControllers,
    Phase.InstallWorkers,
    Phase.UpgradeControllers,
    Phase.UpgradeWorkers data.NoDrain,
    Phase.ResetWorkers data.NoDrain,
    Phase.ResetControllers data.NoDrain,
    Phase.RunHooks "after" "apply",
    Phase.GetKubeconfig data.KubeConfigAPIAddress,
    Phase.Unlock CancelFunc.lockPhaseCancel,
    Phase.Disconnect ]

/-- The manager that `ConfigResource.Create` hands to `Run`: the literal
`phase.Manager{Config: cfg, Concurrency: data.Concurrency, ConcurrentUploads:
data.ConcurrentUploads}` followed by `AddPhase`. -/
def createManager (data : ConfigResourceModel) : Manager :=
  Manager.AddPhase
    { Config := data.K0SConfig_V1Beta1.Cluster
      Concurrency := data.Concurrency
      ConcurrentUploads := data.ConcurrentUploads }
    (createPhases data)

/-- A value logged in the fields map of a tflog call. -/
inductive LogValue where
  | str (s : String)
  | cluster (c : Cluster)
  deriving DecidableEq, Repr

/-- One tflog call made by Create. -/
structure TFLogCall where
  level : TFLevel
  msg : String
  fields : List (String × LogValue)
  deriving DecidableEq, Repr

/-- The result of `req.Plan.Get(ctx, &data)`: its diagnostics and the decoded model. -/
structure PlanGet where
  diags : List Diagnostic
  data : ConfigResourceModel
  deriving Repr

/-- What `manager.Run()` leaves behind: the returned error, if any, and the
cluster `manager.Config` as mutated by the phases that ran. -/
structure RunOutcome where
  err : Option String
  Config : Cluster
  deriving DecidableEq, Repr

/-- What a call of `ConfigResource.Create` does: the response diagnostics, the
model given to `resp.State.Set` (none when it is never reached), the tflog calls
in order and the value assigned to the package variable `phase.NoWait`. -/
structure CreateResponse where
  Diagnostics : List Diagnostic
  State : Option ConfigResourceModel
  tflog : List TFLogCall
  NoWait : Option Bool
  deriving Repr

/-- The message of the warning about uninstalled nodes. -/
def resetWarning : String :=
  "There were nodes that got uninstalled during the apply phase. Please remove them from your k0sctl config file"

/-- The loop over `manager.Config.Spec.Hosts` of Create: one warning at the
first host with `Reset`, then `break`. -/
def resetWarnings : List Host → List TFLogCall
  | [] => []
  | host :: hosts =>
    if host.Reset then [{ level := TFLevel.Warn, msg := resetWarning, fields := [] }]
    else resetWarnings hosts

/-- The method `ConfigResource.Create`. `run` is `manager.Run` and `stateSet`
gives the diagnostics of `resp.State.Set`. -/
def ConfigResource.Create (plan : PlanGet) (run : Manager → RunOutcome)
    (stateSet : ConfigResourceModel → List Diagnostic) : CreateResponse :=
  let diags := plan.diags
  if HasError diags then
    { Diagnostics := diags, State := none, tflog := [], NoWait := none }
  else
    let data := plan.data
    let cfg := data.K0SConfig_V1Beta1.Cluster
    let log0 : List TFLogCall :=
      [{ level := TFLevel.Trace, msg := "Cluster configuration built from resource block",
         fields := [("config", LogValue.cluster cfg)] }]
    let manager := createManager data
    let out := run manager
    match out.err with
    | some _ =>
      let log1 : List TFLogCall :=
        [{ level := TFLevel.Error, msg := "K0S install failed",
           fields := [("log", LogValue.str "still trying to figure out how to get this.")] }]
      { Diagnostics := diags ++ stateSet data
        State := some data
        tflog := log0 ++ log1
        NoWait := some data.NoWait }
    | none =>
      let data1 : ConfigResourceModel :=
        { data with
          K0SConfig_V1Beta1 := { Id := "GET this from the cluster config" }
          KubeConfig := out.Config.Metadata.Kubeconfigs }
      { Diagnostics := diags ++ stateSet data1
        State := some data1
        tflog := log0 ++ resetWarnings out.Config.Spec.Hosts
        NoWait := some data.NoWait }

/-! ## The Manager run, from the design (k0sctl/phase is outside the package) -/

/-- The record of a run: the phases that were started, in order (a failing
phase is the last one), the state they left, and the failing phase with its
error when the run stopped early. -/
structure RunTrace (σ : Type) where
  executed : List Phase
  state : σ
  err : Option (Phase × String)

/-- Modelled from the spec: `Manager.Run` of k0sctl/phase, which executes the
phases strictly in list order, each to completion before the next starts, and
stops at the first phase that reports failure without running later ones.
`exec` is what one phase does to the shared state. -/
def runFrom {σ : Type} (exec : Phase → σ → Except String σ) : List Phase → σ → RunTrace σ
  | [], s => { executed := [], state := s, err := none }
  | p :: ps, s =>
    match exec p s with
    | .error e => { executed := [p], state := s, err := some (p, e) }
    | .ok s1 =>
      let r := runFrom exec ps s1
      { executed := p :: r.executed, state := r.state, err := r.err }

/-- The state shared by the phases of one run: everything the phases other
than Lock and Unlock change (`world`), the object `lockPhase` points to, and the
cancel functions that have been called. -/
structure RunState (ω : Type) where
  world : ω
  lockPhase : LockPhase
  cancelled : List Token

/-- What the phases of a run do: whether Lock acquires the lock in the current
world (and under which cancel function), and what every other phase does. -/
structure PhaseEnv (ω : Type) where
  acquire : ω → Except String Token
  other : Phase → ω → Except String ω

/-- Modelled from the spec: one phase of the run. Lock, on success, sets the
cancellation capability of its own object; Unlock calls the `Cancel` it holds;
the other phases have no reference to the Lock object. -/
def execPhase {ω : Type} (env : PhaseEnv ω) : Phase → RunState ω → Except String (RunState ω)
  | .Lock, s =>
    match env.acquire s.world with
    | .error e => .error e
    | .ok t => .ok { s with lockPhase := { cfs := [t] } }
  | .Unlock c, s => .ok { s with cancelled := s.cancelled ++ c.call s.lockPhase }
  | p, s =>
    match env.other p s.world with
    | .error e => .error e
    | .ok w => .ok { s with world := w }

/-- The state in which Create starts the run: `lockPhase := &phase.Lock{}` and
nothing cancelled yet. -/
def initialRunState {ω : Type} (w : ω) : RunState ω :=
  { world := w, lockPhase := {}, cancelled := [] }

/-- Whether a phase is the Lock phase. -/
def Phase.isLock : Phase → Bool
  | .Lock => true
  | _ => false

/-- Whether a phase is an Unlock phase. -/
def Phase.isUnlock : Phase → Bool
  | .Unlock _ => true
  | _ => false

/-- The mutating phases: every phase other than Connect, DetectOS, Lock,
Unlock and Disconnect. -/
def Phase.isMutating : Phase → Bool
  | .Connect | .DetectOS | .Lock | .Unlock _ | .Disconnect => false
  | _ => true

/-- The Go type name of a phase value. -/
def Phase.typeName : Phase → String
  | .Connect => "Connect"
  | .DetectOS => "DetectOS"
  | .Lock => "Lock"
  | .PrepareHosts => "PrepareHosts"
  | .GatherFacts => "GatherFacts"
  | .DownloadBinaries => "DownloadBinaries"
  | .UploadFiles => "UploadFiles"
  | .ValidateHosts => "ValidateHosts"
  | .GatherK0sFacts => "GatherK0sFacts"
  | .ValidateFacts _ => "ValidateFacts"
  | .UploadBinaries => "UploadBinaries"
  | .DownloadK0s => "DownloadK0s"
  | .InstallBinaries => "InstallBinaries"
  | .RunHooks _ _ => "RunHooks"
  | .PrepareArm => "PrepareArm"
  | .ConfigureK0s => "ConfigureK0s"
  | .Restore _ => "Restore"
  | .InitializeK0s => "InitializeK0s"
  | .InstallControllers => "InstallControllers"
  | .InstallWorkers => "InstallWorkers"
  | .UpgradeControllers => "UpgradeControllers"
  | .UpgradeWorkers _ => "UpgradeWorkers"
  | .ResetWorkers _ => "ResetWorkers"
  | .ResetControllers _ => "ResetControllers"
  | .GetKubeconfig _ => "GetKubeconfig"
  | .Unlock _ => "Unlock"
  | .Disconnect => "Disconnect"

/-- The type names of the phases handed to the Manager, in list order. -/
def createPhaseNames (data : ConfigResourceModel) : List String :=
  (createManager data).phases.map Phase.typeName

/-- A model with every option at its Go zero value. -/
def zeroModel : ConfigResourceModel :=
  { Concurrency := 0, ConcurrentUploads := 0, DisableDowngradeCheck := false,
    RestoreFrom := false, NoDrain := false, NoWait := false,
    KubeConfigAPIAddress := "", KubeConfig := "", K0SConfig_V1Beta1 := { Id := "" } }

/-! ## Inputs used to exercise the definitions -/

/-- The phases of the install, upgrade and reset sequence, in the order the
pipeline is to run them. -/
def installSequence : List String :=
  ["Restore", "InitializeK0s", "InstallControllers", "InstallWorkers", "UpgradeControllers",
   "UpgradeWorkers", "ResetWorkers", "ResetControllers"]

/-- A run in which the Restore phase fails (the snapshot does not exist) and
every other phase succeeds. -/
def failRestore : Phase → Unit → Except String Unit
  | .Restore _, _ => .error "snapshot not found"
  | _, s => .ok s

/-- A run in which InstallControllers fails and every other phase succeeds. -/
def failInstallControllers : Phase → Unit → Except String Unit
  | .InstallControllers, _ => .error "controller install failed"
  | _, s => .ok s

/-- A run environment in which Lock acquires the lock under cancel function 7
and every phase succeeds. -/
def okEnv : PhaseEnv Unit :=
  { acquire := fun _ => .ok 7, other := fun _ w => .ok w }

/-- Whether Create emitted the operator warning about uninstalled nodes. -/
def warned (r : CreateResponse) : Bool :=
  r.tflog.any (fun c => c.level == TFLevel.Warn && c.msg == resetWarning)

/-- A plan that decodes without diagnostics into the model with every option at
its zero value. -/
def zeroPlan : PlanGet :=
  { diags := [], data := zeroModel }

/-- A run that fails with the given cause and leaves the cluster as it was. -/
def failingRun (cause : String) : Manager → RunOutcome :=
  fun m => { err := some cause, Config := m.Config }

/-- A run that fails after one worker has been reset. -/
def failingRunAfterReset : Manager → RunOutcome :=
  fun m =>
    { err := some "ResetControllers failed"
      Config := { m.Config with Spec := { Hosts := [{ Address := "10.0.0.5", Reset := true }] } } }

/-- A run that succeeds, leaving the given kubeconfig and hosts. -/
def succeedingRun (kubeconfig : String) (hosts : List Host) : Manager → RunOutcome :=
  fun m =>
    { err := none
      Config := { Metadata := { m.Config.Metadata with Kubeconfigs := kubeconfig }
                  Spec := { m.Config.Spec with Hosts := hosts } } }

/-- A `State.Set` that reports no diagnostics. -/
def stateSetOk : ConfigResourceModel → List Diagnostic :=
  fun _ => []

/-! ## Lemmas on the run -/

theorem createManager_phases (data : ConfigResourceModel) :
    (createManager data).phases = createPhases data := by
  simp [createManager, Manager.AddPhase]

theorem createPhases_length (data : ConfigResourceModel) :
    (createPhases data).length = 28 := rfl

theorem runFrom_noerr {σ : Type} (exec : Phase → σ → Except String σ) (ps : List Phase) :
    ∀ s : σ, (runFrom exec ps s).err = none → (runFrom exec ps s).executed = ps := by
  induction ps with
  | nil => intro s _; rfl
  | cons p ps ih =>
    intro s h
    unfold runFrom at h ⊢
    cases hp : exec p s with
    | error e => simp [hp] at h
    | ok s1 =>
      simp only [hp] at h ⊢
      rw [ih s1 h]

theorem runFrom_err_index {σ : Type} (exec : Phase → σ → Except String σ) (ps : List Phase) :
    ∀ (s : σ) (p : Phase) (e : String), (runFrom exec ps s).err = some (p, e) →
      ∃ k, ps[k]? = some p ∧ (runFrom exec ps s).executed = ps.take (k + 1) := by
  induction ps with
  | nil => intro s p e h; simp [runFrom] at h
  | cons q qs ih =>
    intro s p e h
    unfold runFrom at h ⊢
    cases hq : exec q s with
    | error e1 =>
      simp only [hq, Option.some.injEq, Prod.mk.injEq] at h
      refine ⟨0, ?_, ?_⟩
      · simp [h.1]
      · simp [hq]
    | ok s1 =>
      simp only [hq] at h ⊢
      obtain ⟨k, hk, hex⟩ := ih s1 p e h
      exact ⟨k + 1, by simpa using hk, by simp [hex]⟩

theorem createPhases_lockIdx (data : ConfigResourceModel) :
    (createPhases data).findIdx Phase.isLock = 2 := rfl

theorem createPhases_unlockIdx (data : ConfigResourceModel) :
    (createPhases data).findIdx Phase.isUnlock = 26 := rfl

theorem createPhases_index_lt (data : ConfigResourceModel) (i : Nat) (p : Phase)
    (h : (createPhases data)[i]? = some p) : i < 28 := by
  have := (List.getElem?_eq_some.mp h).1
  simpa [createPhases_length] using this

/-! ## The pipeline built by Create -/

/-- C1: in the phase list that Create hands to the Manager, Lock and Unlock each
occur exactly once; every mutating phase has an index strictly between Lock's
and Unlock's; only Connect and DetectOS precede Lock and only Disconnect
follows Unlock; and a run in list order with no failing phase executes the
whole list in that order, so Lock runs before every mutating phase and Unlock
after all of them. -/
theorem create_lock_unlock_bracket (data : ConfigResourceModel) :
    ((createManager data).phases.countP Phase.isLock = 1 ∧
      (createManager data).phases.countP Phase.isUnlock = 1) ∧
    (∀ i p, (createManager data).phases[i]? = some p → p.isMutating = true →
      (createManager data).phases.findIdx Phase.isLock < i ∧
      i < (createManager data).phases.findIdx Phase.isUnlock) ∧
    (∀ i p, (createManager data).phases[i]? = some p →
      i < (createManager data).phases.findIdx Phase.isLock →
      p = Phase.Connect ∨ p = Phase.DetectOS) ∧
    (∀ i p, (createManager data).phases[i]? = some p →
      (createManager data).phases.findIdx Phase.isUnlock < i → p = Phase.Disconnect) ∧
    (∀ (σ : Type) (exec : Phase → σ → Except String σ) (s : σ),
      (runFrom exec (createManager data).phases s).err = none →
      (runFrom exec (createManager data).phases s).executed = (createManager data).phases) := by
  rw [createManager_phases, createPhases_lockIdx, createPhases_unlockIdx]
  refine ⟨⟨rfl, rfl⟩, ?_, ?_, ?_, ?_⟩
  · intro i p h hm
    have hi := createPhases_index_lt data i p h
    interval_cases i <;> simp [createPhases] at h <;> subst h <;>
      simp [Phase.isMutating] at hm ⊢
  · intro i p h hlt
    interval_cases i <;> simp [createPhases] at h <;> simp [h]
  · intro i p h hlt
    have hi := createPhases_index_lt data i p h
    interval_cases i
    simp [createPhases] at h
    exact h.symm
  · intro σ exec s h
    exact runFrom_noerr exec _ s h

/-- C1 at the zero model: PrepareHosts (index 3) lies between Lock and Unlock,
DetectOS precedes Lock, Disconnect follows Unlock, and a run whose phases all
succeed executes the whole list. -/
theorem create_lock_unlock_bracket_witness :
    ((createManager zeroModel).phases.findIdx Phase.isLock < 3 ∧
      3 < (createManager zeroModel).phases.findIdx Phase.isUnlock) ∧
    (Phase.DetectOS = Phase.Connect ∨ Phase.DetectOS = Phase.DetectOS) ∧
    Phase.Disconnect = Phase.Disconnect ∧
    (runFrom (fun _ (s : Unit) => Except.ok s) (createManager zeroModel).phases ()).executed
      = (createManager zeroModel).phases :=
  ⟨(create_lock_unlock_bracket zeroModel).2.1 3 Phase.PrepareHosts rfl rfl,
   (create_lock_unlock_bracket zeroModel).2.2.1 1 Phase.DetectOS rfl (by decide),
   (create_lock_unlock_bracket zeroModel).2.2.2.1 27 Phase.Disconnect rfl (by decide),
   (create_lock_unlock_bracket zeroModel).2.2.2.2 Unit (fun _ s => Except.ok s) () rfl⟩

theorem createPhaseNames_eq (data : ConfigResourceModel) :
    createPhaseNames data =
      ["Connect", "DetectOS", "Lock", "PrepareHosts", "GatherFacts", "DownloadBinaries",
       "UploadFiles", "ValidateHosts", "GatherK0sFacts", "ValidateFacts", "UploadBinaries",
       "DownloadK0s", "InstallBinaries", "RunHooks", "PrepareArm", "ConfigureK0s", "Restore",
       "InitializeK0s", "InstallControllers", "InstallWorkers", "UpgradeControllers",
       "UpgradeWorkers", "ResetWorkers", "ResetControllers", "RunHooks", "GetKubeconfig",
       "Unlock", "Disconnect"] := rfl

/-- C8: in the phase list built by Create, Restore, InitializeK0s,
InstallControllers, InstallWorkers, UpgradeControllers, UpgradeWorkers,
ResetWorkers and ResetControllers each occur exactly once and at strictly
increasing positions; so in a run in list order that stops at the first failing
phase, a failing Restore leaves InitializeK0s and every Install, Upgrade and
Reset phase unexecuted, and a failing InstallControllers leaves UpgradeWorkers
and ResetWorkers unexecuted. -/
theorem create_install_sequence_order (data : ConfigResourceModel) :
    (∀ n ∈ installSequence, (createPhaseNames data).count n = 1) ∧
    List.Pairwise (fun a b => a < b)
      (installSequence.map (fun n => (createPhaseNames data).indexOf n)) ∧
    (∀ (σ : Type) (exec : Phase → σ → Except String σ) (s : σ) (p : Phase) (e : String),
      (runFrom exec (createManager data).phases s).err = some (p, e) →
      p.typeName = "Restore" →
      ∀ q ∈ (runFrom exec (createManager data).phases s).executed,
        q.typeName ∉ installSequence.tail) ∧
    (∀ (σ : Type) (exec : Phase → σ → Except String σ) (s : σ) (p : Phase) (e : String),
      (runFrom exec (createManager data).phases s).err = some (p, e) →
      p.typeName = "InstallControllers" →
      ∀ q ∈ (runFrom exec (createManager data).phases s).executed,
        q.typeName ∉ ["UpgradeWorkers", "ResetWorkers"]) := by
  rw [createPhaseNames_eq, createManager_phases]
  refine ⟨by decide, by decide, ?_, ?_⟩
  · intro σ exec s p e h hp
    obtain ⟨k, hk, hex⟩ := runFrom_err_index exec _ s p e h
    rw [hex]
    have hi := createPhases_index_lt data k p hk
    interval_cases k <;> simp [createPhases] at hk <;> subst hk <;>
      simp [Phase.typeName] at hp
    intro q hq
    simp [createPhases] at hq
    rcases hq with h | h | h | h | h | h | h | h | h | h | h | h | h | h | h | h | h <;>
      subst h <;> simp [Phase.typeName, installSequence]
  · intro σ exec s p e h hp
    obtain ⟨k, hk, hex⟩ := runFrom_err_index exec _ s p e h
    rw [hex]
    have hi := createPhases_index_lt data k p hk
    interval_cases k <;> simp [createPhases] at hk <;> subst hk <;>
      simp [Phase.typeName] at hp
    intro q hq
    simp [createPhases] at hq
    rcases hq with h | h | h | h | h | h | h | h | h | h | h | h | h | h | h | h | h | h | h <;>
      subst h <;> simp [Phase.typeName]

/-- C8 at the zero model: Restore and InitializeK0s each occur once; a run whose
Restore fails does stop with that error and its last executed phase, Restore, is
none of the later phases of the sequence; likewise for InstallControllers. -/
theorem create_install_sequence_order_witness :
    (createPhaseNames zeroModel).count "Restore" = 1 ∧
    ((runFrom failRestore (createManager zeroModel).phases ()).err
        = some (Phase.Restore false, "snapshot not found") ∧
      (Phase.Restore false).typeName ∉ installSequence.tail) ∧
    ((runFrom failInstallControllers (createManager zeroModel).phases ()).err
        = some (Phase.InstallControllers, "controller install failed") ∧
      Phase.InstallControllers.typeName ∉ ["UpgradeWorkers", "ResetWorkers"]) :=
  ⟨(create_install_sequence_order zeroModel).1 "Restore" (by decide),
   ⟨rfl, (create_install_sequence_order zeroModel).2.2.1 Unit failRestore ()
      (Phase.Restore false) "snapshot not found" rfl rfl (Phase.Restore false) (by decide)⟩,
   ⟨rfl, (create_install_sequence_order zeroModel).2.2.2 Unit failInstallControllers ()
      Phase.InstallControllers "controller install failed" rfl rfl
      Phase.InstallControllers (by decide)⟩⟩

/-! ## Lock and Unlock in the run -/

theorem execPhase_other {ω : Type} (env : PhaseEnv ω) (p : Phase) (s : RunState ω)
    (hl : p.isLock = false) (hu : p.isUnlock = false) :
    execPhase env p s =
      match env.other p s.world with
      | .error e => .error e
      | .ok w => .ok { s with world := w } := by
  cases p <;> simp [Phase.isLock] at hl <;> simp [Phase.isUnlock] at hu <;> rfl

theorem runFrom_cons_executed {σ : Type} (exec : Phase → σ → Except String σ) (p : Phase)
    (ps : List Phase) (s : σ) :
    ∀ q ∈ (runFrom exec (p :: ps) s).executed,
      q = p ∨ ∃ s1, exec p s = .ok s1 ∧ q ∈ (runFrom exec ps s1).executed := by
  intro q hq
  unfold runFrom at hq
  cases hp : exec p s with
  | error e => simp [hp] at hq; exact Or.inl hq
  | ok s1 =>
    simp only [hp, List.mem_cons] at hq
    rcases hq with h | h
    · exact Or.inl h
    · exact Or.inr ⟨s1, rfl, h⟩

theorem runFrom_cons_ok {σ : Type} (exec : Phase → σ → Except String σ) (p : Phase)
    (ps : List Phase) (s s1 : σ) (h : exec p s = .ok s1) :
    (runFrom exec (p :: ps) s).state = (runFrom exec ps s1).state := by
  conv_lhs => unfold runFrom
  simp [h]

theorem runFrom_cons_error {σ : Type} (exec : Phase → σ → Except String σ) (p : Phase)
    (ps : List Phase) (s : σ) (e : String) (h : exec p s = .error e) :
    (runFrom exec (p :: ps) s).state = s ∧ (runFrom exec (p :: ps) s).executed = [p] := by
  unfold runFrom
  simp [h]

/-- Phases other than Lock and Unlock leave the Lock object and the list of
called cancel functions as they were. -/
theorem runFrom_others_keep {ω : Type} (env : PhaseEnv ω) (ps : List Phase)
    (hl : ∀ p ∈ ps, p.isLock = false) (hu : ∀ p ∈ ps, p.isUnlock = false) :
    ∀ s : RunState ω,
      (runFrom (execPhase env) ps s).state.lockPhase = s.lockPhase ∧
      (runFrom (execPhase env) ps s).state.cancelled = s.cancelled := by
  induction ps with
  | nil => intro s; exact ⟨rfl, rfl⟩
  | cons p ps ih =>
    intro s
    have hpl := hl p (List.mem_cons_self _ _)
    have hpu := hu p (List.mem_cons_self _ _)
    have ih1 := ih (fun q hq => hl q (List.mem_cons_of_mem _ hq))
      (fun q hq => hu q (List.mem_cons_of_mem _ hq))
    have hex := execPhase_other env p s hpl hpu
    cases hw : env.other p s.world with
    | error e =>
      rw [hw] at hex
      rw [(runFrom_cons_error _ p ps s e hex).1]
      exact ⟨rfl, rfl⟩
    | ok w1 =>
      rw [hw] at hex
      rw [runFrom_cons_ok _ p ps s _ hex]
      exact ih1 _

/-- After Lock has run: in a list with no further Lock whose only Unlock holds
the method value of the Lock object, once an Unlock has been executed the cancel
functions called are those the Lock object holds. -/
theorem runFrom_unlock_calls {ω : Type} (env : PhaseEnv ω) (ps : List Phase)
    (hl : ∀ p ∈ ps, p.isLock = false)
    (hu : ∀ c, Phase.Unlock c ∈ ps → c = CancelFunc.lockPhaseCancel)
    (h1 : ps.countP Phase.isUnlock ≤ 1) :
    ∀ s : RunState ω, s.cancelled = [] →
      (runFrom (execPhase env) ps s).state.lockPhase = s.lockPhase ∧
      ((∃ c, Phase.Unlock c ∈ (runFrom (execPhase env) ps s).executed) →
        (runFrom (execPhase env) ps s).state.cancelled = s.lockPhase.cfs) := by
  induction ps with
  | nil =>
    intro s _
    refine ⟨rfl, ?_⟩
    rintro ⟨c, hc⟩
    simp [runFrom] at hc
  | cons p ps ih =>
    intro s hs
    have hpl := hl p (List.mem_cons_self _ _)
    have hl1 : ∀ q ∈ ps, q.isLock = false := fun q hq => hl q (List.mem_cons_of_mem _ hq)
    cases hpu : p.isUnlock with
    | true =>
      have hfree : ∀ q ∈ ps, q.isUnlock = false := by
        intro q hq
        by_contra hne
        have hq1 : q.isUnlock = true := by simpa using hne
        have hpos : 0 < ps.countP Phase.isUnlock := List.countP_pos_iff.mpr ⟨q, hq, hq1⟩
        rw [List.countP_cons_of_pos _ _ hpu] at h1
        omega
      obtain ⟨c, rfl⟩ : ∃ c, p = Phase.Unlock c := by
        cases p <;> simp [Phase.isUnlock] at hpu
        exact ⟨_, rfl⟩
      have hc := hu c (List.mem_cons_self _ _)
      subst hc
      have hex : execPhase env (Phase.Unlock CancelFunc.lockPhaseCancel) s
          = .ok { s with cancelled := s.cancelled ++ s.lockPhase.cfs } := rfl
      rw [runFrom_cons_ok _ _ ps s _ hex]
      have hk := runFrom_others_keep env ps hl1 hfree
        { s with cancelled := s.cancelled ++ s.lockPhase.cfs }
      refine ⟨hk.1, fun _ => ?_⟩
      rw [hk.2, hs]
      rfl
    | false =>
      have hu1 : ∀ c, Phase.Unlock c ∈ ps → c = CancelFunc.lockPhaseCancel :=
        fun c hc => hu c (List.mem_cons_of_mem _ hc)
      have h11 : ps.countP Phase.isUnlock ≤ 1 := by
        rw [List.countP_cons_of_neg _ _ (by simp [hpu])] at h1
        exact h1
      have hex := execPhase_other env p s hpl hpu
      cases hw : env.other p s.world with
      | error e =>
        rw [hw] at hex
        obtain ⟨hst, hexd⟩ := runFrom_cons_error _ p ps s e hex
        rw [hst, hexd]
        refine ⟨rfl, ?_⟩
        rintro ⟨c, hc⟩
        simp at hc
        rw [← hc] at hpu
        simp [Phase.isUnlock] at hpu
      | ok w1 =>
        rw [hw] at hex
        rw [runFrom_cons_ok _ p ps s _ hex]
        obtain ⟨ihl, ihc⟩ := ih hl1 hu1 h11 { s with world := w1 } hs
        refine ⟨ihl, ?_⟩
        rintro ⟨c, hc⟩
        rcases runFrom_cons_executed _ p ps s _ hc with hq | ⟨s1, hs1, hq⟩
        · rw [← hq] at hpu
          simp [Phase.isUnlock] at hpu
        · rw [hex] at hs1
          cases hs1
          exact ihc ⟨c, hq⟩

theorem execPhase_other_ok {ω : Type} (env : PhaseEnv ω) (p : Phase) (s s1 : RunState ω)
    (hl : p.isLock = false) (hu : p.isUnlock = false) (h : execPhase env p s = .ok s1) :
    s1.lockPhase = s.lockPhase ∧ s1.cancelled = s.cancelled := by
  rw [execPhase_other env p s hl hu] at h
  cases hw : env.other p s.world with
  | error e => simp [hw] at h
  | ok w1 =>
    simp only [hw, Except.ok.injEq] at h
    subst h
    exact ⟨rfl, rfl⟩

theorem execPhase_lock_ok {ω : Type} (env : PhaseEnv ω) (s s1 : RunState ω)
    (h : execPhase env Phase.Lock s = .ok s1) :
    ∃ tok, env.acquire s.world = .ok tok ∧ s1.lockPhase = { cfs := [tok] } ∧
      s1.cancelled = s.cancelled := by
  unfold execPhase at h
  cases hw : env.acquire s.world with
  | error e => simp [hw] at h
  | ok tok =>
    simp only [hw, Except.ok.injEq] at h
    subst h
    exact ⟨tok, rfl, rfl, rfl⟩

/-- C2: the Unlock phase of the pipeline built by Create holds the method value
of the Lock object, and in every run in which Unlock is executed (so Lock has
succeeded before it) the cancel functions Unlock calls are exactly the
capability that Lock acquired and stored in that run, which differs from what
the same Cancel would have called when the phase list was constructed. -/
theorem unlock_calls_lock_capability (data : ConfigResourceModel) {ω : Type}
    (env : PhaseEnv ω) (w : ω) :
    Phase.Unlock CancelFunc.lockPhaseCancel ∈ (createManager data).phases ∧
    ((∃ c, Phase.Unlock c ∈
        (runFrom (execPhase env) (createManager data).phases (initialRunState w)).executed) →
      ∃ tok w1, env.acquire w1 = .ok tok ∧
        (runFrom (execPhase env) (createManager data).phases (initialRunState w)).state.lockPhase.cfs
          = [tok] ∧
        (runFrom (execPhase env) (createManager data).phases (initialRunState w)).state.cancelled
          = [tok] ∧
        (runFrom (execPhase env) (createManager data).phases (initialRunState w)).state.cancelled
          ≠ CancelFunc.lockPhaseCancel.call (initialRunState w).lockPhase) := by
  rw [createManager_phases]
  refine ⟨by simp [createPhases], ?_⟩
  rintro ⟨c, hc⟩
  have hsplit : createPhases data =
      Phase.Connect :: Phase.DetectOS :: Phase.Lock :: (createPhases data).drop 3 := rfl
  rw [hsplit] at hc ⊢
  rcases runFrom_cons_executed _ _ _ _ _ hc with h | ⟨s1, hs1, hc1⟩
  · cases h
  rcases runFrom_cons_executed _ _ _ _ _ hc1 with h | ⟨s2, hs2, hc2⟩
  · cases h
  rcases runFrom_cons_executed _ _ _ _ _ hc2 with h | ⟨s3, hs3, hc3⟩
  · cases h
  rw [runFrom_cons_ok _ _ _ _ _ hs1, runFrom_cons_ok _ _ _ _ _ hs2,
    runFrom_cons_ok _ _ _ _ _ hs3]
  obtain ⟨-, hk1⟩ := execPhase_other_ok env Phase.Connect _ _ rfl rfl hs1
  obtain ⟨-, hk2⟩ := execPhase_other_ok env Phase.DetectOS _ _ rfl rfl hs2
  obtain ⟨tok, hacq, hlk, hk3⟩ := execPhase_lock_ok env _ _ hs3
  have hs3c : s3.cancelled = [] := by rw [hk3, hk2, hk1]; rfl
  have hl : ∀ p ∈ (createPhases data).drop 3, p.isLock = false := by
    intro p hp
    simp [createPhases] at hp
    rcases hp with h | h | h | h | h | h | h | h | h | h | h | h |
      h | h | h | h | h | h | h | h | h | h | h | h | h <;> subst h <;> rfl
  have hu : ∀ c, Phase.Unlock c ∈ (createPhases data).drop 3 →
      c = CancelFunc.lockPhaseCancel := by
    intro c hc
    simpa [createPhases] using hc
  have h1 : ((createPhases data).drop 3).countP Phase.isUnlock ≤ 1 := by
    simp [createPhases, List.countP_cons, Phase.isUnlock]
  obtain ⟨hlock, hcan⟩ := runFrom_unlock_calls env _ hl hu h1 s3 hs3c
  have hcan1 := hcan ⟨c, hc3⟩
  refine ⟨tok, s2.world, hacq, ?_, ?_, ?_⟩
  · rw [hlock, hlk]
  · rw [hcan1, hlk]
  · rw [hcan1, hlk]
    simp [CancelFunc.call, initialRunState]

/-- C2 on a run where every phase succeeds: Unlock is executed and calls the
cancel function 7 that Lock acquired. -/
theorem unlock_calls_lock_capability_witness :
    (∃ c, Phase.Unlock c ∈
      (runFrom (execPhase okEnv) (createManager zeroModel).phases (initialRunState ())).executed) ∧
    (runFrom (execPhase okEnv) (createManager zeroModel).phases (initialRunState ())).state.cancelled
      = [7] ∧
    ∃ tok w1, okEnv.acquire w1 = .ok tok ∧
      (runFrom (execPhase okEnv) (createManager zeroModel).phases
        (initialRunState ())).state.lockPhase.cfs = [tok] ∧
      (runFrom (execPhase okEnv) (createManager zeroModel).phases
        (initialRunState ())).state.cancelled = [tok] ∧
      (runFrom (execPhase okEnv) (createManager zeroModel).phases
        (initialRunState ())).state.cancelled
        ≠ CancelFunc.lockPhaseCancel.call (initialRunState ()).lockPhase :=
  ⟨⟨CancelFunc.lockPhaseCancel, by decide⟩, rfl,
   (unlock_calls_lock_capability zeroModel okEnv ()).2 ⟨CancelFunc.lockPhaseCancel, by decide⟩⟩

/-- The model tells the two Go readings apart: an Unlock holding a nil Cancel
calls nothing after Lock has run, one holding the method value calls what Lock
stored. -/
theorem unlock_nil_cancel_calls_nothing :
    (runFrom (execPhase okEnv) [Phase.Lock, Phase.Unlock CancelFunc.nil]
      (initialRunState ())).state.cancelled = [] ∧
    (runFrom (execPhase okEnv) [Phase.Lock, Phase.Unlock CancelFunc.lockPhaseCancel]
      (initialRunState ())).state.cancelled = [7] :=
  ⟨rfl, rfl⟩

/-! ## What Create reports and stores -/

theorem resetWarnings_eq (hosts : List Host) :
    resetWarnings hosts =
      if hosts.any (fun h => h.Reset) then
        [{ level := TFLevel.Warn, msg := resetWarning, fields := [] }]
      else [] := by
  induction hosts with
  | nil => rfl
  | cons h hs ih =>
    unfold resetWarnings
    cases hr : h.Reset <;> simp [hr, ih]

/-- C3: when the plan decodes cleanly and Run fails with any cause, Create adds
no diagnostic at all (with a State.Set that reports none, the response has no
error) and its only report is an Error log entry with a fixed message and a
fixed field, the same for every cause. -/
theorem create_drops_run_error (cause : String) :
    (ConfigResource.Create zeroPlan (failingRun cause) stateSetOk).Diagnostics = [] ∧
    HasError (ConfigResource.Create zeroPlan (failingRun cause) stateSetOk).Diagnostics = false ∧
    (ConfigResource.Create zeroPlan (failingRun cause) stateSetOk).tflog =
      (ConfigResource.Create zeroPlan (failingRun "") stateSetOk).tflog ∧
    (ConfigResource.Create zeroPlan (failingRun cause) stateSetOk).State = some zeroModel :=
  ⟨rfl, rfl, rfl, rfl⟩

/-- C4, as stated, fails: a run that fails after resetting a host leaves a host
with Reset set, yet Create emits no warning. -/
theorem create_no_warning_on_failed_run :
    ¬ (warned (ConfigResource.Create zeroPlan failingRunAfterReset stateSetOk) = true ↔
        ∃ h ∈ (failingRunAfterReset (createManager zeroPlan.data)).Config.Spec.Hosts,
          h.Reset = true) := by
  intro h
  have hw : warned (ConfigResource.Create zeroPlan failingRunAfterReset stateSetOk) = false := by
    decide
  rw [hw] at h
  exact absurd (h.mpr ⟨{ Address := "10.0.0.5", Reset := true }, by decide, rfl⟩) (by decide)

/-- C4, amended: for a plan that decodes without error, Create emits the
warning about uninstalled nodes if and only if Run succeeded and at least one
host of manager.Config.Spec.Hosts has Reset set after the run. -/
theorem create_warns_iff_success_and_reset (plan : PlanGet) (run : Manager → RunOutcome)
    (stateSet : ConfigResourceModel → List Diagnostic) (hplan : HasError plan.diags = false) :
    warned (ConfigResource.Create plan run stateSet) = true ↔
      ((run (createManager plan.data)).err = none ∧
        ∃ h ∈ (run (createManager plan.data)).Config.Spec.Hosts, h.Reset = true) := by
  unfold ConfigResource.Create
  simp only [hplan]
  cases herr : (run (createManager plan.data)).err with
  | some e => simp [warned, resetWarning]
  | none =>
    simp only [resetWarnings_eq, warned]
    by_cases hr : (run (createManager plan.data)).Config.Spec.Hosts.any (fun h => h.Reset) = true
    · have hex := List.any_eq_true.mp hr
      simp [hr, resetWarning]
      obtain ⟨h, hm, hres⟩ := hex
      exact ⟨h, hm, hres⟩
    · simp only [hr]
      simp [resetWarning]
      intro h hm
      by_contra hc
      exact hr (List.any_eq_true.mpr ⟨h, hm, by simpa using hc⟩)

/-- C4 amended, on a successful run that reset one host: the plan has no error
and the warning is emitted exactly as the right-hand side says. -/
theorem create_warns_iff_success_and_reset_witness :
    HasError zeroPlan.diags = false ∧
    warned (ConfigResource.Create zeroPlan
      (succeedingRun "kc" [{ Address := "10.0.0.5", Reset := true }]) stateSetOk) = true ∧
    (warned (ConfigResource.Create zeroPlan
        (succeedingRun "kc" [{ Address := "10.0.0.5", Reset := true }]) stateSetOk) = true ↔
      ((succeedingRun "kc" [{ Address := "10.0.0.5", Reset := true }]
          (createManager zeroPlan.data)).err = none ∧
        ∃ h ∈ (succeedingRun "kc" [{ Address := "10.0.0.5", Reset := true }]
          (createManager zeroPlan.data)).Config.Spec.Hosts, h.Reset = true)) :=
  ⟨rfl, by decide,
   create_warns_iff_success_and_reset zeroPlan
     (succeedingRun "kc" [{ Address := "10.0.0.5", Reset := true }]) stateSetOk rfl⟩

/-- C5: for a plan that decodes without error, Create gives State.Set a model
whose KubeConfig is manager.Config.Metadata.Kubeconfigs as left by the run when
Run succeeds, and the KubeConfig decoded from the plan when Run fails. -/
theorem create_state_kubeconfig (plan : PlanGet) (run : Manager → RunOutcome)
    (stateSet : ConfigResourceModel → List Diagnostic) (hplan : HasError plan.diags = false) :
    ((run (createManager plan.data)).err = none →
      (ConfigResource.Create plan run stateSet).State.map (fun d => d.KubeConfig) =
        some (run (createManager plan.data)).Config.Metadata.Kubeconfigs) ∧
    ((run (createManager plan.data)).err ≠ none →
      (ConfigResource.Create plan run stateSet).State.map (fun d => d.KubeConfig) =
        some plan.data.KubeConfig) := by
  unfold ConfigResource.Create
  simp only [hplan]
  cases herr : (run (createManager plan.data)).err with
  | some e => simp
  | none => simp

/-- C5 on a successful run leaving kubeconfig "kc" and on a failing run. -/
theorem create_state_kubeconfig_witness :
    HasError zeroPlan.diags = false ∧
    (ConfigResource.Create zeroPlan (succeedingRun "kc" []) stateSetOk).State.map
        (fun d => d.KubeConfig) = some "kc" ∧
    (ConfigResource.Create zeroPlan (failingRun "boom") stateSetOk).State.map
        (fun d => d.KubeConfig) = some zeroPlan.data.KubeConfig :=
  ⟨rfl,
   (create_state_kubeconfig zeroPlan (succeedingRun "kc" []) stateSetOk rfl).1 rfl,
   (create_state_kubeconfig zeroPlan (failingRun "boom") stateSetOk rfl).2 (by decide)⟩

/-! ## The Cluster and the Manager options -/

/-- C6: the cluster returned by Cluster() is the zero Cluster for every model:
empty name, empty version, no hosts; models with different contents yield the
same Cluster. -/
theorem cluster_ignores_model (kc1 kc2 : K0SConfig_V1Beta1) :
    kc1.Cluster = kc2.Cluster ∧
    kc1.Cluster.Metadata.Name = "" ∧ kc1.Cluster.Spec.Version = "" ∧
    kc1.Cluster.Spec.Hosts = [] ∧
    (K0SConfig_V1Beta1.mk "prod").Cluster = (K0SConfig_V1Beta1.mk "staging").Cluster :=
  ⟨rfl, rfl, rfl, rfl, rfl⟩

/-- C7: the Manager gets the model's Concurrency unchanged; for a model that
leaves it at zero the Manager has Concurrency 0, which is neither
DefaultConcurrency nor positive, and a negative value is passed on as well. -/
theorem manager_concurrency_not_defaulted (data : ConfigResourceModel) :
    (createManager data).Concurrency = data.Concurrency ∧
    (createManager zeroModel).Concurrency = 0 ∧
    (createManager zeroModel).Concurrency ≠ DefaultConcurrency ∧
    ¬ (0 < (createManager zeroModel).Concurrency) ∧
    ¬ (0 < (createManager { zeroModel with Concurrency := -4 }).Concurrency) :=
  ⟨rfl, rfl, by decide, by decide, by decide⟩

/-! ## The log bridge and the Configure hand-over -/

/-- C9: PipeLogRusToTFLog registers a handler for TraceLevel, and for every
byte slice that handler's Write logs nothing and returns 0 with the error
"unknown Log level"; the handlers of the six other levels log the bytes at the
matching tflog level and return the length and no error. -/
theorem write_trace_level_unknown (p : List UInt8) :
    ({ Writer := { loglevel := Level.TraceLevel }, LogLevels := [Level.TraceLevel] } : Hook)
      ∈ PipeLogRusToTFLog ∧
    Level.TraceLevel ∈ AllLevels ∧
    LogRusToTFLogHandler.Write { loglevel := Level.TraceLevel } p =
      { n := 0, err := some "unknown Log level", logged := [] } ∧
    LogRusToTFLogHandler.Write { loglevel := Level.PanicLevel } p =
      { n := p.length, err := none, logged := [(TFLevel.Error, p)] } ∧
    LogRusToTFLogHandler.Write { loglevel := Level.FatalLevel } p =
      { n := p.length, err := none, logged := [(TFLevel.Error, p)] } ∧
    LogRusToTFLogHandler.Write { loglevel := Level.ErrorLevel } p =
      { n := p.length, err := none, logged := [(TFLevel.Error, p)] } ∧
    LogRusToTFLogHandler.Write { loglevel := Level.WarnLevel } p =
      { n := p.length, err := none, logged := [(TFLevel.Warn, p)] } ∧
    LogRusToTFLogHandler.Write { loglevel := Level.InfoLevel } p =
      { n := p.length, err := none, logged := [(TFLevel.Info, p)] } ∧
    LogRusToTFLogHandler.Write { loglevel := Level.DebugLevel } p =
      { n := p.length, err := none, logged := [(TFLevel.Debug, p)] } :=
  ⟨by decide, by decide, rfl, rfl, rfl, rfl, rfl, rfl, rfl⟩

/-- C10: the value K0sProvider.Configure stores as ResourceData is the model by
value; given it, ConfigResource.Configure adds the error "Unexpected Resource
Configure Type" and leaves disable_telemetry unchanged, whatever the configured
DisableTelemetry. With nil ProviderData it adds nothing and changes nothing;
only a pointer to the model is accepted. -/
theorem configure_rejects_provider_value (m : K0sProviderModel) (r : ConfigResource) :
    (K0sProvider.Configure { diags := [], data := m }).ResourceData = ProviderData.modelValue m ∧
    (ConfigResource.Configure r (K0sProvider.Configure { diags := [], data := m }).ResourceData).2 =
      [{ severity := Severity.error, summary := "Unexpected Resource Configure Type",
         detail := "Expected K0sProviderModel, got: provider.K0sProviderModel. Please report this issue to the provider developers." }] ∧
    (ConfigResource.Configure r (K0sProvider.Configure { diags := [], data := m }).ResourceData).1 = r ∧
    (ConfigResource.Configure {} (K0sProvider.Configure
        { diags := [], data := { DisableTelemetry := TBool.known true,
                                 Concurrency := TInt64.null } }).ResourceData).1.disable_telemetry
      = false ∧
    ConfigResource.Configure r ProviderData.nil = (r, []) ∧
    ConfigResource.Configure r (ProviderData.modelPtr m) =
      ({ r with disable_telemetry := m.DisableTelemetry.ValueBool }, []) := by
  refine ⟨rfl, ?_, rfl, rfl, rfl, rfl⟩
  simp [K0sProvider.Configure, HasError, ConfigResource.Configure, AddError,
    ProviderData.typeName]

end Provider
